import Mathlib

/-!
Shallow embedding of the GdmLiveAudio component (src/index.tsx): the playback
scheduling state (the nextStartTime cursor and the active source set), the
inbound message handler of the live session, the capture/recording control
paths, and the reset procedure.  Times and durations are rationals, the Web
Audio clock reading is an explicit parameter of each handler invocation, and
the external operations (decodeAudioData, sendRealtimeInput, getUserMedia)
are environment inputs carrying their outcome.  Source nodes are identified
by a counter standing for JavaScript object identity.
-/

namespace GdmLiveAudio

/-- A decoded audio buffer; only its duration in seconds matters to the
scheduling logic of the component. -/
structure AudioBuffer where
  duration : ℚ
deriving DecidableEq

/-- An AudioBufferSourceNode that was created and started: its identity, the
time passed to start, and the duration of its buffer. -/
structure ScheduledSource where
  id : ℕ
  startTime : ℚ
  duration : ℚ
deriving DecidableEq

/-- Observable playback actions issued to the audio graph by the handlers. -/
inductive AudioEvent where
  | started (id : ℕ) (time : ℚ)
  | stopped (id : ℕ)
deriving DecidableEq

/-- The mutable fields of the GdmLiveAudio element that the claims are about:
isRecording, status, error, the session reference, the nextStartTime cursor,
the media/source/script-processor node references (tracked as presence flags),
and the set of active AudioBufferSourceNodes (tracked in insertion order,
which is the iteration order of a JavaScript Set).  hasInputAudioContext is
the presence of inputAudioContext, assigned at construction and never
cleared. -/
structure AppState where
  isRecording : Bool
  status : String
  error : String
  hasSession : Bool
  nextStartTime : ℚ
  hasInputAudioContext : Bool
  hasMediaStream : Bool
  hasSourceNode : Bool
  hasScriptProcessorNode : Bool
  sources : List ScheduledSource
  nextId : ℕ
deriving DecidableEq

/-- updateStatus: sets status, clears error. -/
def updateStatus (msg : String) (s : AppState) : AppState :=
  { s with status := msg, error := "" }

/-- updateError: sets error with the fixed prefix, clears status. -/
def updateError (msg : String) (s : AppState) : AppState :=
  { s with error := "Error: " ++ msg, status := "" }

/-- stopRecording: the early-return guard requires isRecording, mediaStream,
inputAudioContext and scriptProcessorNode to all be absent; otherwise it
posts a status, clears isRecording, tears down the script processor, source
node and media stream, and posts the final status. -/
def stopRecording (s : AppState) : AppState :=
  if !s.isRecording && !s.hasMediaStream && !s.hasInputAudioContext
      && !s.hasScriptProcessorNode then
    s
  else
    let s1 := updateStatus ("Stopping recording...") s
    let s2 := { s1 with isRecording := false }
    let s3 := if s2.hasScriptProcessorNode then
        { s2 with hasScriptProcessorNode := false } else s2
    let s4 := if s3.hasSourceNode then { s3 with hasSourceNode := false } else s3
    let s5 := if s4.hasMediaStream then { s4 with hasMediaStream := false } else s4
    updateStatus ("Recording stopped. Click Start to begin again.") s5

/-- The session onerror callback: it only posts an error message; it does not
stop recording, clear the session reference, or touch playback state. -/
def onSessionError (detail : String) (s : AppState) : AppState :=
  updateError ("Session error: " ++ detail) s

/-- The session onclose callback: it only posts a status message. -/
def onSessionClose (reason : String) (s : AppState) : AppState :=
  updateStatus ("Connection Closed: " ++ reason) s

/-- Environment of one onmessage invocation: whether the output audio context
is in the running state (after the resume attempt), the reading of
outputAudioContext.currentTime during the handling, and the outcome of
decodeAudioData on the chunk carried by the message. -/
structure MessageEnv where
  outputRunning : Bool
  now : ℚ
  decodeResult : Except String AudioBuffer

/-- The part of an inbound LiveServerMessage the handler inspects: whether
serverContent.modelTurn.parts[0].inlineData.data is present, and the
serverContent.interrupted flag. -/
structure ServerMessage where
  hasAudioData : Bool
  interrupted : Bool

/-- The statements before the await of decodeAudioData in the audio branch:
clamp nextStartTime up to the current clock reading. -/
def audioPre (now : ℚ) (s : AppState) : AppState :=
  { s with nextStartTime := max s.nextStartTime now }

/-- The statements after the await of decodeAudioData resolves: on success,
create a source for the buffer, start it at nextStartTime, advance
nextStartTime by the buffer duration and add the source to the active set;
on a decode error, post an error and leave the playback state alone. -/
def audioPost (res : Except String AudioBuffer) (s : AppState) :
    AppState × List AudioEvent :=
  match res with
  | Except.ok buf =>
      let src : ScheduledSource :=
        { id := s.nextId, startTime := s.nextStartTime, duration := buf.duration }
      ({ s with
          sources := s.sources ++ [src],
          nextStartTime := s.nextStartTime + buf.duration,
          nextId := s.nextId + 1 },
       [AudioEvent.started src.id src.startTime])
  | Except.error msg =>
      (updateError ("Error processing received audio: " ++ msg) s, [])

/-- The audio branch of onmessage, run when the message carries audio data:
if the output context is running, the pre-await clamp followed by the
post-await scheduling; otherwise an error is posted and nothing is
scheduled. -/
def handleAudioBranch (env : MessageEnv) (s : AppState) :
    AppState × List AudioEvent :=
  if env.outputRunning then
    audioPost env.decodeResult (audioPre env.now s)
  else
    (updateError ("Audio output context is not active.") s, [])

/-- The interrupted branch of onmessage: stop every source in the active set,
delete each from the set, and zero the nextStartTime cursor. -/
def handleInterrupted (s : AppState) : AppState × List AudioEvent :=
  ({ s with sources := [], nextStartTime := 0 },
   s.sources.map (fun src => AudioEvent.stopped src.id))

/-- The ended listener registered on each source: delete that source from the
active set (a Set delete, a no-op when the source is absent). -/
def removeSource (id : ℕ) (s : AppState) : AppState :=
  { s with sources := s.sources.filter (fun src => src.id ≠ id) }

/-- One full onmessage invocation: the audio branch first when audio data is
present, then the interrupted branch when the interrupted flag is set. -/
def handleMessage (env : MessageEnv) (msg : ServerMessage) (s : AppState) :
    AppState × List AudioEvent :=
  let r1 := if msg.hasAudioData then handleAudioBranch env s else (s, [])
  if msg.interrupted then
    let r2 := handleInterrupted r1.1
    (r2.1, r1.2 ++ r2.2)
  else
    r1

/-- One onaudioprocess invocation of the capture script processor.
sendResult carries the outcome of session.sendRealtimeInput when a send is
attempted (none on success, some message when it throws).  Returns the new
state and whether a send was attempted: the handler returns early with no
send unless isRecording and a session are both present, and on a send error
it posts the error and then calls stopRecording. -/
def handleAudioProcess (sendResult : Option String) (s : AppState) :
    AppState × Bool :=
  if s.isRecording && s.hasSession then
    match sendResult with
    | none => (s, true)
    | some emsg =>
        (stopRecording
          (updateError ("Error sending audio: " ++ emsg ++ ". Try resetting.") s),
         true)
  else
    (s, false)

/-- Environment of one startRecording invocation: the states of the input and
output audio contexts after the resume attempts, and the outcome of the
getUserMedia call (none on success, some message when it throws). -/
structure RecordingEnv where
  inputRunning : Bool
  outputRunning : Bool
  micResult : Option String

/-- startRecording: returns immediately when already recording; requires a
session; requires the input context to be running (a non-running output
context only posts an error and continues); then requests the microphone,
builds the capture graph and flips isRecording, or on failure posts an error
and calls stopRecording. -/
def startRecording (env : RecordingEnv) (s : AppState) : AppState :=
  if s.isRecording then
    s
  else if !s.hasSession then
    updateError
      ("Session not initialized. Cannot start recording. Check API Key and network, then try resetting.")
      s
  else if !env.inputRunning then
    updateError
      ("Input audio context could not be started. Microphone may be blocked or unavailable.")
      s
  else
    let s1 := if !env.outputRunning then
        updateError ("Output audio context could not be started.") s else s
    let s2 := updateStatus ("Requesting microphone access...") s1
    match env.micResult with
    | some emsg =>
        stopRecording
          (updateError
            ("Failed to start recording: " ++ emsg ++ ". Check microphone permissions.")
            s2)
    | none =>
        let s3 := updateStatus ("Microphone access granted. Starting capture...") s2
        let s4 := { s3 with hasMediaStream := true, hasSourceNode := true,
                            hasScriptProcessorNode := true }
        let s5 := { s4 with isRecording := true }
        updateStatus ("🔴 Recording... Capturing PCM chunks.") s5

/-- The synchronous part of reset: post a status, stopRecording, close and
null the session.  The deferred re-initialization behind setTimeout is not
part of this step.  Note that reset does not clear the active source set nor
the nextStartTime cursor, and it installs no guard against callbacks of the
closed session still firing. -/
def reset (s : AppState) : AppState :=
  let s1 := updateStatus ("Resetting session...") s
  let s2 := stopRecording s1
  if s2.hasSession then { s2 with hasSession := false } else s2

/-- State of the event-interleaving machine: the component state plus at most
one in-flight decodeAudioData await, recorded with the result it will
eventually resolve to. -/
structure MachineState where
  app : AppState
  pendingDecode : Option (Except String AudioBuffer)

/-- Events on the single-threaded event loop, at the granularity the await in
onmessage creates: an audio message runs its pre-await statements and leaves
the decode in flight; the decode later resolves and runs the post-await
statements; an interrupted-only message runs the interrupted branch in its
own onmessage invocation, possibly between the two. -/
inductive MachineStep where
  | audioArrive (now : ℚ) (res : Except String AudioBuffer)
  | decodeSettle
  | interruptArrive

/-- One machine step.  Faithful to the code, decodeSettle schedules the
decoded buffer unconditionally: no generation or epoch value is compared, so
an interruption handled while the decode was in flight does not invalidate
it. -/
def machineStep (ms : MachineState) (st : MachineStep) :
    MachineState × List AudioEvent :=
  match st with
  | MachineStep.audioArrive now res =>
      ({ app := audioPre now ms.app, pendingDecode := some res }, [])
  | MachineStep.decodeSettle =>
      match ms.pendingDecode with
      | some res =>
          let r := audioPost res ms.app
          ({ app := r.1, pendingDecode := none }, r.2)
      | none => (ms, [])
  | MachineStep.interruptArrive =>
      let r := handleInterrupted ms.app
      ({ app := r.1, pendingDecode := ms.pendingDecode }, r.2)

/-- Run a list of machine steps, collecting the emitted events in order. -/
def machineRun (ms : MachineState) : List MachineStep →
    MachineState × List AudioEvent
  | [] => (ms, [])
  | st :: rest =>
      let r1 := machineStep ms st
      let r2 := machineRun r1.1 rest
      (r2.1, r1.2 ++ r2.2)

/-- Run a sequence of audio-carrying messages (clock reading and successfully
decoded buffer for each) through the onmessage audio branch with the output
context running, returning the final state and the list of
(startTime, duration) pairs of the scheduled sources in order. -/
def runSchedule (s : AppState) : List (ℚ × AudioBuffer) →
    AppState × List (ℚ × ℚ)
  | [] => (s, [])
  | c :: rest =>
      let s1 := (handleAudioBranch
        { outputRunning := true, now := c.1, decodeResult := Except.ok c.2 } s).1
      let r := runSchedule s1 rest
      (r.1, (max s.nextStartTime c.1, c.2.duration) :: r.2)

/-- The freshly initialized component: not recording, session present, cursor
at zero, no active sources. -/
def initialApp : AppState :=
  { isRecording := false, status := "", error := "", hasSession := true,
    nextStartTime := 0, hasInputAudioContext := true, hasMediaStream := false,
    hasSourceNode := false, hasScriptProcessorNode := false, sources := [],
    nextId := 0 }

/-- A state in which capture is running against an open session. -/
def recordingApp : AppState :=
  { initialApp with isRecording := true, hasMediaStream := true,
                    hasSourceNode := true, hasScriptProcessorNode := true,
                    status := "🔴 Recording... Capturing PCM chunks." }

/-- A state with two sources playing and the cursor past both. -/
def playingApp : AppState :=
  { initialApp with
      sources := [{ id := 0, startTime := 0, duration := 1 },
                  { id := 1, startTime := 1, duration := 2 }],
      nextStartTime := 3, nextId := 2 }

/-- A message carrying only the interrupted flag. -/
def interruptOnlyMsg : ServerMessage :=
  { hasAudioData := false, interrupted := true }

/-- A message environment in which no audio would decode. -/
def quietEnv : MessageEnv :=
  { outputRunning := true, now := 0, decodeResult := Except.error ("none") }

/-- A message environment whose chunk fails to decode, at clock reading 5. -/
def failEnv : MessageEnv :=
  { outputRunning := true, now := 5, decodeResult := Except.error ("corrupt chunk") }

/-- A message environment whose chunk decodes to a one-second buffer, at
clock reading 6. -/
def goodEnv : MessageEnv :=
  { outputRunning := true, now := 6, decodeResult := Except.ok { duration := 1 } }

/-- The interleaving in which an audio chunk arrives and begins decoding, an
interrupted-only message is handled while that decode is in flight, and the
decode then resolves. -/
def staleDecodeTrace : List MachineStep :=
  [MachineStep.audioArrive 0 (Except.ok { duration := 1 }),
   MachineStep.interruptArrive,
   MachineStep.decodeSettle]

/- Characterization of the audio branch on a successful decode. -/
theorem handleAudioBranch_ok (env : MessageEnv) (s : AppState) (buf : AudioBuffer)
    (hrun : env.outputRunning = true) (hok : env.decodeResult = Except.ok buf) :
    handleAudioBranch env s =
      ({ s with
          sources := s.sources
            ++ [{ id := s.nextId, startTime := max s.nextStartTime env.now,
                  duration := buf.duration }],
          nextStartTime := max s.nextStartTime env.now + buf.duration,
          nextId := s.nextId + 1 },
       [AudioEvent.started s.nextId (max s.nextStartTime env.now)]) := by
  simp [handleAudioBranch, audioPre, audioPost, hrun, hok]

/- Every start time produced by a run of successfully decoded chunks is at
least the cursor value the run began with. -/
theorem runSchedule_start_lower (chunks : List (ℚ × AudioBuffer)) :
    ∀ s : AppState, (∀ c ∈ chunks, 0 ≤ c.2.duration) →
      ∀ p ∈ (runSchedule s chunks).2, s.nextStartTime ≤ p.1 := by
  induction chunks with
  | nil =>
      intro s _ p hp
      simp [runSchedule] at hp
  | cons c rest ih =>
      intro s hdur p hp
      have hb := handleAudioBranch_ok
        { outputRunning := true, now := c.1, decodeResult := Except.ok c.2 }
        s c.2 rfl rfl
      simp only [runSchedule, List.mem_cons] at hp
      rcases hp with h | h
      · rw [h]
        exact le_max_left _ _
      · have hd0 : 0 ≤ c.2.duration := hdur c (List.mem_cons_self c rest)
        have h1 : s.nextStartTime
            ≤ (handleAudioBranch
                { outputRunning := true, now := c.1, decodeResult := Except.ok c.2 }
                s).1.nextStartTime := by
          rw [hb]
          exact le_trans (le_max_left _ _) (le_add_of_nonneg_right hd0)
        exact le_trans h1
          (ih _ (fun d hd => hdur d (List.mem_cons_of_mem c hd)) p h)

/- The (startTime, duration) pairs of a run of successfully decoded chunks
form a chain: each start time is at least the previous one, and at least the
previous start time plus the previous duration. -/
theorem runSchedule_chain (chunks : List (ℚ × AudioBuffer)) :
    ∀ s : AppState, (∀ c ∈ chunks, 0 ≤ c.2.duration) →
      List.Chain' (fun p q : ℚ × ℚ => p.1 ≤ q.1 ∧ p.1 + p.2 ≤ q.1)
        (runSchedule s chunks).2 := by
  induction chunks with
  | nil =>
      intro s _
      simp [runSchedule]
  | cons c rest ih =>
      intro s hdur
      have hb := handleAudioBranch_ok
        { outputRunning := true, now := c.1, decodeResult := Except.ok c.2 }
        s c.2 rfl rfl
      have hd0 : 0 ≤ c.2.duration := hdur c (List.mem_cons_self c rest)
      have htail : ∀ d ∈ rest, 0 ≤ d.2.duration :=
        fun d hd => hdur d (List.mem_cons_of_mem c hd)
      simp only [runSchedule]
      rw [List.chain'_cons']
      constructor
      · intro q hq
        have hqmem : q ∈ (runSchedule
            (handleAudioBranch
              { outputRunning := true, now := c.1, decodeResult := Except.ok c.2 }
              s).1 rest).2 :=
          List.mem_of_mem_head? hq
        have hlow := runSchedule_start_lower rest _ htail q hqmem
        rw [hb] at hlow
        simp only at hlow
        constructor
        · exact le_trans (le_add_of_nonneg_right hd0) hlow
        · exact hlow
      · exact ih _ htail

/-- C1: with the output context running and no intervening interruption, a
scheduled chunk starts at max(nextStartTime, clock-now at scheduling), and
immediately afterwards nextStartTime equals that start time plus the decoded
buffer duration; over any sequence of scheduled chunks the start times are
non-decreasing and each is at least the previous start time plus the
previous duration. -/
theorem C1_schedule_times (env : MessageEnv) (s : AppState) (buf : AudioBuffer)
    (hrun : env.outputRunning = true) (hok : env.decodeResult = Except.ok buf)
    (chunks : List (ℚ × AudioBuffer)) (hdur : ∀ c ∈ chunks, 0 ≤ c.2.duration) :
    ((handleAudioBranch env s).1.sources
        = s.sources
          ++ [{ id := s.nextId, startTime := max s.nextStartTime env.now,
                duration := buf.duration }]
      ∧ (handleAudioBranch env s).2
        = [AudioEvent.started s.nextId (max s.nextStartTime env.now)]
      ∧ (handleAudioBranch env s).1.nextStartTime
        = max s.nextStartTime env.now + buf.duration)
    ∧ List.Chain' (fun p q : ℚ × ℚ => p.1 ≤ q.1 ∧ p.1 + p.2 ≤ q.1)
        (runSchedule s chunks).2 := by
  have hb := handleAudioBranch_ok env s buf hrun hok
  refine ⟨⟨?_, ?_, ?_⟩, runSchedule_chain chunks s hdur⟩ <;> rw [hb]

/-- Witness for C1 at a concrete environment, state and chunk sequence. -/
theorem C1_schedule_times_witness :
    (∀ c ∈ [((0 : ℚ), ({ duration := 1 } : AudioBuffer)),
            ((5 : ℚ), ({ duration := 2 } : AudioBuffer))], 0 ≤ c.2.duration)
    ∧ (((handleAudioBranch
          { outputRunning := true, now := 2, decodeResult := Except.ok { duration := 1 } }
          initialApp).1.sources
        = initialApp.sources
          ++ [{ id := initialApp.nextId,
                startTime := max initialApp.nextStartTime 2, duration := 1 }]
      ∧ (handleAudioBranch
          { outputRunning := true, now := 2, decodeResult := Except.ok { duration := 1 } }
          initialApp).2
        = [AudioEvent.started initialApp.nextId (max initialApp.nextStartTime 2)]
      ∧ (handleAudioBranch
          { outputRunning := true, now := 2, decodeResult := Except.ok { duration := 1 } }
          initialApp).1.nextStartTime
        = max initialApp.nextStartTime 2 + (1 : ℚ))
      ∧ List.Chain' (fun p q : ℚ × ℚ => p.1 ≤ q.1 ∧ p.1 + p.2 ≤ q.1)
          (runSchedule initialApp
            [((0 : ℚ), ({ duration := 1 } : AudioBuffer)),
             ((5 : ℚ), ({ duration := 2 } : AudioBuffer))]).2) :=
  ⟨by decide,
   C1_schedule_times
     { outputRunning := true, now := 2, decodeResult := Except.ok { duration := 1 } }
     initialApp { duration := 1 } rfl rfl
     [((0 : ℚ), ({ duration := 1 } : AudioBuffer)),
      ((5 : ℚ), ({ duration := 2 } : AudioBuffer))] (by decide)⟩

/-- C2: handling a message carrying the interrupted signal empties the active
source set and zeroes nextStartTime within that same invocation, and (for a
pure interruption message) every previously active source receives an
explicit stop. -/
theorem C2_interrupt_clears (env : MessageEnv) (msg : ServerMessage) (s : AppState)
    (hint : msg.interrupted = true) :
    (handleMessage env msg s).1.sources = []
    ∧ (handleMessage env msg s).1.nextStartTime = 0
    ∧ (msg.hasAudioData = false →
        ∀ src ∈ s.sources,
          AudioEvent.stopped src.id ∈ (handleMessage env msg s).2) := by
  refine ⟨?_, ?_, ?_⟩
  · simp [handleMessage, handleInterrupted, hint]
  · simp [handleMessage, handleInterrupted, hint]
  · intro hna src hsrc
    have hev : (handleMessage env msg s).2
        = s.sources.map (fun src => AudioEvent.stopped src.id) := by
      simp [handleMessage, handleInterrupted, hint, hna]
    rw [hev]
    exact List.mem_map.mpr ⟨src, hsrc, rfl⟩

/-- Witness for C2 at a concrete interruption while two sources play. -/
theorem C2_interrupt_clears_witness :
    interruptOnlyMsg.interrupted = true
    ∧ ((handleMessage quietEnv interruptOnlyMsg playingApp).1.sources = []
      ∧ (handleMessage quietEnv interruptOnlyMsg playingApp).1.nextStartTime = 0
      ∧ (interruptOnlyMsg.hasAudioData = false →
          ∀ src ∈ playingApp.sources,
            AudioEvent.stopped src.id
              ∈ (handleMessage quietEnv interruptOnlyMsg playingApp).2)) :=
  ⟨rfl, C2_interrupt_clears quietEnv interruptOnlyMsg playingApp rfl⟩

/-- C8: cancellation is idempotent: a second interrupted-branch run changes
nothing and stops nothing, running it on an empty active set stops nothing,
and removal of a source from the active set is a no-op when it was already
removed or was never present. -/
theorem C8_cancel_idempotent (s t u : AppState) (srcId : ℕ)
    (hempty : t.sources = [])
    (habsent : ∀ src ∈ u.sources, src.id ≠ srcId) :
    (handleInterrupted (handleInterrupted s).1).1 = (handleInterrupted s).1
    ∧ (handleInterrupted (handleInterrupted s).1).2 = []
    ∧ ((handleInterrupted t).1.sources = []
        ∧ (handleInterrupted t).1.nextStartTime = 0
        ∧ (handleInterrupted t).2 = [])
    ∧ removeSource srcId (removeSource srcId s) = removeSource srcId s
    ∧ removeSource srcId u = u := by
  refine ⟨rfl, rfl, ⟨rfl, rfl, ?_⟩, ?_, ?_⟩
  · simp [handleInterrupted, hempty]
  · have hff : (s.sources.filter (fun src => src.id ≠ srcId)).filter
        (fun src => src.id ≠ srcId)
        = s.sources.filter (fun src => src.id ≠ srcId) :=
      List.filter_eq_self.mpr (fun a ha => (List.mem_filter.mp ha).2)
    simp [removeSource, hff]
  · have hid : u.sources.filter (fun src => src.id ≠ srcId) = u.sources :=
      List.filter_eq_self.mpr (fun a ha => by simpa using habsent a ha)
    simp only [ne_eq, decide_not] at hid
    simp [removeSource, hid]

/-- Witness for C8 at concrete states and a source id absent from them. -/
theorem C8_cancel_idempotent_witness :
    initialApp.sources = []
    ∧ (∀ src ∈ playingApp.sources, src.id ≠ 7)
    ∧ ((handleInterrupted (handleInterrupted playingApp).1).1
        = (handleInterrupted playingApp).1
      ∧ (handleInterrupted (handleInterrupted playingApp).1).2 = []
      ∧ ((handleInterrupted initialApp).1.sources = []
          ∧ (handleInterrupted initialApp).1.nextStartTime = 0
          ∧ (handleInterrupted initialApp).2 = [])
      ∧ removeSource 7 (removeSource 7 playingApp) = removeSource 7 playingApp
      ∧ removeSource 7 playingApp = playingApp) :=
  ⟨rfl, by decide, C8_cancel_idempotent playingApp initialApp playingApp 7 rfl (by decide)⟩

/-- C9: in a single message carrying both audio and the interrupted flag, the
audio branch runs first (the chunk is decoded, started and added) and the
interrupted branch then stops and removes it together with all other active
sources and zeroes nextStartTime, so no source survives the message. -/
theorem C9_audio_then_interrupt (env : MessageEnv) (msg : ServerMessage)
    (s : AppState) (buf : AudioBuffer)
    (haudio : msg.hasAudioData = true) (hint : msg.interrupted = true)
    (hrun : env.outputRunning = true) (hok : env.decodeResult = Except.ok buf) :
    (handleMessage env msg s).1.sources = []
    ∧ (handleMessage env msg s).1.nextStartTime = 0
    ∧ (handleMessage env msg s).2
        = AudioEvent.started s.nextId (max s.nextStartTime env.now)
            :: (s.sources.map (fun src => AudioEvent.stopped src.id)
                ++ [AudioEvent.stopped s.nextId]) := by
  have hb := handleAudioBranch_ok env s buf hrun hok
  refine ⟨?_, ?_, ?_⟩ <;>
    simp [handleMessage, haudio, hint, hb, handleInterrupted]

/-- Witness for C9 at a concrete message carrying audio and interruption. -/
theorem C9_audio_then_interrupt_witness :
    (({ hasAudioData := true, interrupted := true } : ServerMessage).hasAudioData = true)
    ∧ ((handleMessage
          { outputRunning := true, now := 4, decodeResult := Except.ok { duration := 2 } }
          { hasAudioData := true, interrupted := true } playingApp).1.sources = []
      ∧ (handleMessage
          { outputRunning := true, now := 4, decodeResult := Except.ok { duration := 2 } }
          { hasAudioData := true, interrupted := true } playingApp).1.nextStartTime = 0
      ∧ (handleMessage
          { outputRunning := true, now := 4, decodeResult := Except.ok { duration := 2 } }
          { hasAudioData := true, interrupted := true } playingApp).2
        = AudioEvent.started playingApp.nextId (max playingApp.nextStartTime 4)
            :: (playingApp.sources.map (fun src => AudioEvent.stopped src.id)
                ++ [AudioEvent.stopped playingApp.nextId])) :=
  ⟨rfl,
   C9_audio_then_interrupt
     { outputRunning := true, now := 4, decodeResult := Except.ok { duration := 2 } }
     { hasAudioData := true, interrupted := true } playingApp { duration := 2 }
     rfl rfl rfl rfl⟩

/-- C10: calling startRecording while already recording returns immediately
and leaves the whole state exactly as it was. -/
theorem C10_start_while_recording_noop (env : RecordingEnv) (s : AppState)
    (h : s.isRecording = true) :
    startRecording env s = s := by
  simp [startRecording, h]

/-- Witness for C10 at the concrete recording state. -/
theorem C10_start_while_recording_noop_witness :
    recordingApp.isRecording = true
    ∧ startRecording
        { inputRunning := true, outputRunning := true, micResult := none }
        recordingApp = recordingApp :=
  ⟨rfl,
   C10_start_while_recording_noop
     { inputRunning := true, outputRunning := true, micResult := none }
     recordingApp rfl⟩

/-- C3 is refuted on the code: there is no generation or epoch check, so when
a decode that began before an interruption resolves after it, the decoded
buffer is still scheduled.  On the trace audio-arrives, interrupted,
decode-resolves, the final state holds the started stale source and an
advanced cursor, and the start event is emitted by the step after the
interruption. -/
theorem C3_stale_decode_scheduled :
    (machineRun { app := initialApp, pendingDecode := none }
        staleDecodeTrace).1.app.sources
      = [{ id := 0, startTime := 0, duration := 1 }]
    ∧ (machineRun { app := initialApp, pendingDecode := none }
        staleDecodeTrace).1.app.nextStartTime = 1
    ∧ (machineRun { app := initialApp, pendingDecode := none }
        staleDecodeTrace).2 = [AudioEvent.started 0 0] := by
  refine ⟨rfl, ?_, ?_⟩ <;>
    norm_num [staleDecodeTrace, machineRun, machineStep, audioPre, audioPost,
      handleInterrupted, initialApp]

/-- C4 is refuted on the code: the session callbacks carry no
instance-identity check, so a callback of the session closed by reset still
mutates the current state when it fires afterwards: an interrupted message
of the old session empties the active set and zeroes nextStartTime, and an
onerror of the old session overwrites the visible status/error fields. -/
theorem C4_no_identity_guard :
    (handleMessage quietEnv interruptOnlyMsg (reset playingApp)).1.sources
        ≠ (reset playingApp).sources
    ∧ (handleMessage quietEnv interruptOnlyMsg (reset playingApp)).1.nextStartTime
        ≠ (reset playingApp).nextStartTime
    ∧ (onSessionError ("stale failure") (reset playingApp)).status
        ≠ (reset playingApp).status := by
  refine ⟨?_, ?_, ?_⟩ <;> decide

/-- C5 is refuted on the code: the session onerror callback only posts an
error message; with capture active it leaves isRecording set and the send
gate open, so further onaudioprocess invocations still send, and
startRecording invoked after the error still starts capture because it only
checks that a session object exists. -/
theorem C5_error_leaves_capture_running :
    (onSessionError ("network failure") recordingApp).isRecording = true
    ∧ (handleAudioProcess none (onSessionError ("network failure") recordingApp)).2
        = true
    ∧ (startRecording { inputRunning := true, outputRunning := true, micResult := none }
        (onSessionError ("network failure") initialApp)).isRecording = true :=
  ⟨rfl, rfl, rfl⟩

/-- C6 is partly refuted on the code: on a send error capture is stopped and
no further send is attempted, but the posted error is immediately cleared by
the status updates inside stopRecording, so after the handler the visible
status/error field shows the stop status and an empty error instead of the
send error. -/
theorem C6_send_error_not_surfaced :
    (handleAudioProcess (some ("websocket closed")) recordingApp).1.isRecording
        = false
    ∧ (handleAudioProcess (some ("websocket closed")) recordingApp).2 = true
    ∧ (handleAudioProcess (some ("websocket closed")) recordingApp).1.error = ""
    ∧ (handleAudioProcess (some ("websocket closed")) recordingApp).1.status
        = "Recording stopped. Click Start to begin again."
    ∧ (handleAudioProcess none
        (handleAudioProcess (some ("websocket closed")) recordingApp).1).2 = false :=
  ⟨rfl, rfl, rfl, rfl, rfl⟩

/-- C7 as stated is refuted on the code: a chunk whose decode fails still
moves nextStartTime, because the clamp of the cursor to the clock reading
runs before the decode is attempted. -/
theorem C7_cursor_moved_counterexample :
    (handleAudioBranch failEnv initialApp).1.nextStartTime
      ≠ initialApp.nextStartTime := by
  decide

/-- C7 amended: when a decode fails, no source is created or added and an
error is recorded; the failed chunk may advance nextStartTime up to the
clock reading of its handling, but when the clock has not gone backwards a
later well-formed chunk is scheduled with exactly the sources, cursor and
events it would have had if the failed chunk had never been handled. -/
theorem C7_decode_failure_isolated (s : AppState) (e1 e2 : MessageEnv)
    (emsg : String) (buf : AudioBuffer)
    (h1 : e1.outputRunning = true) (hf : e1.decodeResult = Except.error emsg)
    (h2 : e2.outputRunning = true) (hok : e2.decodeResult = Except.ok buf)
    (hclock : e1.now ≤ e2.now) :
    (handleAudioBranch e1 s).1.sources = s.sources
    ∧ (handleAudioBranch e1 s).2 = []
    ∧ (handleAudioBranch e1 s).1.error
        = "Error: " ++ ("Error processing received audio: " ++ emsg)
    ∧ (handleAudioBranch e1 s).1.status = ""
    ∧ (handleAudioBranch e2 (handleAudioBranch e1 s).1).1.sources
        = (handleAudioBranch e2 s).1.sources
    ∧ (handleAudioBranch e2 (handleAudioBranch e1 s).1).1.nextStartTime
        = (handleAudioBranch e2 s).1.nextStartTime
    ∧ (handleAudioBranch e2 (handleAudioBranch e1 s).1).2
        = (handleAudioBranch e2 s).2 := by
  have hL : (handleAudioBranch e1 s).1
      = { s with nextStartTime := max s.nextStartTime e1.now,
                 error := "Error: " ++ ("Error processing received audio: " ++ emsg),
                 status := "" } := by
    simp [handleAudioBranch, audioPre, audioPost, updateError, h1, hf]
  have hmax : max (max s.nextStartTime e1.now) e2.now = max s.nextStartTime e2.now := by
    rw [max_assoc, max_eq_right hclock]
  refine ⟨?_, ?_, ?_, ?_, ?_, ?_, ?_⟩
  · rw [hL]
  · simp [handleAudioBranch, audioPre, audioPost, h1, hf]
  · rw [hL]
  · rw [hL]
  · rw [hL, handleAudioBranch_ok e2 _ buf h2 hok, handleAudioBranch_ok e2 s buf h2 hok]
    simp [hmax]
  · rw [hL, handleAudioBranch_ok e2 _ buf h2 hok, handleAudioBranch_ok e2 s buf h2 hok]
    simp [hmax]
  · rw [hL, handleAudioBranch_ok e2 _ buf h2 hok, handleAudioBranch_ok e2 s buf h2 hok]
    simp [hmax]

/-- Witness for the amended C7 at a concrete failed chunk followed by a
well-formed one. -/
theorem C7_decode_failure_isolated_witness :
    failEnv.now ≤ goodEnv.now
    ∧ ((handleAudioBranch failEnv playingApp).1.sources = playingApp.sources
      ∧ (handleAudioBranch failEnv playingApp).2 = []
      ∧ (handleAudioBranch failEnv playingApp).1.error
          = "Error: " ++ ("Error processing received audio: " ++ "corrupt chunk")
      ∧ (handleAudioBranch failEnv playingApp).1.status = ""
      ∧ (handleAudioBranch goodEnv (handleAudioBranch failEnv playingApp).1).1.sources
          = (handleAudioBranch goodEnv playingApp).1.sources
      ∧ (handleAudioBranch goodEnv (handleAudioBranch failEnv playingApp).1).1.nextStartTime
          = (handleAudioBranch goodEnv playingApp).1.nextStartTime
      ∧ (handleAudioBranch goodEnv (handleAudioBranch failEnv playingApp).1).2
          = (handleAudioBranch goodEnv playingApp).2) :=
  ⟨by decide,
   C7_decode_failure_isolated playingApp failEnv goodEnv ("corrupt chunk")
     { duration := 1 } rfl rfl rfl rfl (by decide)⟩

end GdmLiveAudio
